import Mathlib

/-!
Verification development for the guided-format quiz parser and QTI
serializer of `EDUTRACK.py`.

Modelling choices (shallow embedding):
* Python strings are modelled as `List Char` (`Str`); `str.strip`,
  `str.lower`, `str.split` and slicing are translated to list operations.
  Character classes (`\s`, `\d`, `[A-D]`, ...) are interpreted over the
  ASCII range, which covers every pattern the source uses.
* The regular expressions appearing in the source are fixed patterns; each
  is translated directly into an executable function on `Str`
  (`stripMarker` for `^[A-Da-d1-9]+\)\s*`, `stripBoldWrap` for
  `^\*\*(.*?)\*\*$`, `matchesQuestionLabel` for `Question\s+\d+:`, the
  three `re.split` separators, and the four option-marker patterns).
* `parse_guided_format` raises `ValueError`; this is modelled with
  `Except Str`, carrying the exact message strings the source formats.
* `create_qti_bytes` builds an lxml element tree and serializes it to
  bytes; the claims are about the tree structure, so the model builds the
  element tree (`Xml`) that the source would serialize.  The
  `points_per_question` float is only ever used through
  `str(points_per_question)`, so it is modelled as the already-formatted
  string.
-/

abbrev Str := List Char

/-- Python's whitespace class (`str.strip` / regex `\s`), ASCII range. -/
def pyIsSpace (c : Char) : Bool :=
  c = ' ' || c = '\t' || c = '\n' || c = '\r' || c = '\x0b' || c = '\x0c'

/-- Python `str.lstrip()`. -/
def lstrip (s : Str) : Str := s.dropWhile pyIsSpace

/-- Python `str.rstrip()`. -/
def rstrip (s : Str) : Str := (s.reverse.dropWhile pyIsSpace).reverse

/-- Python `str.strip()`. -/
def strip (s : Str) : Str := lstrip (rstrip s)

/-- Python `str.strip(c)` for a single character `c`. -/
def stripChar (c : Char) (s : Str) : Str :=
  ((s.dropWhile (· = c)).reverse.dropWhile (· = c)).reverse

/-- Python `str.lower()` (ASCII range, as used by the source's prefixes). -/
def lowerStr (s : Str) : Str := s.map Char.toLower

/-- Decimal rendering of a natural number, as Python `str`/f-strings do. -/
def natStr (n : Nat) : Str := Nat.toDigits 10 n

/-- `block.split('\n')`, as (first line, remaining lines). -/
def splitNlAux : Str → Str × List Str
  | [] => ([], [])
  | c :: cs =>
    let r := splitNlAux cs
    if c = '\n' then ([], r.1 :: r.2) else (c :: r.1, r.2)

/-- `block.split('\n')` (always non-empty, like Python's `str.split`). -/
def splitNl (s : Str) : List Str := (splitNlAux s).1 :: (splitNlAux s).2

/-- Characters of the marker class `[A-Da-d1-9]` of the shared
marker-stripping regex. -/
def isMarkerChar (c : Char) : Bool :=
  ('A' ≤ c && c ≤ 'D') || ('a' ≤ c && c ≤ 'd') || ('1' ≤ c && c ≤ '9')

/-- `re.sub(r'^[A-Da-d1-9]+\)\s*', '', s)`: if `s` starts with a non-empty
run of marker characters followed by `)`, drop the run, the `)` and any
following whitespace; otherwise return `s` unchanged. -/
def stripMarker (s : Str) : Str :=
  let run := s.takeWhile isMarkerChar
  let rest := s.dropWhile isMarkerChar
  if run ≠ [] && rest.head? = some ')' then rest.tail.dropWhile pyIsSpace
  else s

/-- `re.sub(r'^\*\*(.*?)\*\*$', r'\1', s)`: unwrap a `**`-wrapped line
(the `.` of the pattern does not cross a newline). -/
def stripBoldWrap (s : Str) : Str :=
  if 4 ≤ s.length && decide (s.take 2 = ['*', '*'])
      && decide (s.drop (s.length - 2) = ['*', '*'])
      && decide ('\n' ∉ (s.drop 2).take (s.length - 4)) then
    (s.drop 2).take (s.length - 4)
  else s

/-- `re.sub(r'^Question \d+:', '', s)`: drop a leading literal
`Question ` followed by one or more digits and a colon. -/
def stripQLabel (s : Str) : Str :=
  if ("Question ".toList).isPrefixOf s then
    let r := s.drop 9
    let ds := r.takeWhile Char.isDigit
    let r2 := r.dropWhile Char.isDigit
    if ds ≠ [] && r2.head? = some ':' then r2.tail else s
  else s

/-- Cleaning of a block's first line (source lines 22-23): strip, unwrap
bold markup, drop a `Question N:` label, strip, strip stray `*`, strip. -/
def cleanQuestionLine (l : Str) : Str :=
  strip (stripChar '*' (strip (stripQLabel (stripBoldWrap (strip l)))))

/-- The question-separator configuration (`q_sep_map` of the source). -/
inductive QSep where
  | bold
  | questionLabel
  | blankLine
deriving DecidableEq, Repr

/-- The option-marker configuration (`opt_regex_map` of the source). -/
inductive OptStyle where
  | upperA
  | lowerA
  | bulleted
  | numeric
deriving DecidableEq, Repr

/-- `re.match(opt_regex, s)` for the four configurable option patterns
`^[A-D]\)`, `^[a-d]\)`, `^·\s[A-D]\)`, `^\d+\)`. -/
def optMatch (st : OptStyle) (s : Str) : Bool :=
  match st with
  | .upperA =>
    match s with
    | c1 :: c2 :: _ => ('A' ≤ c1 && c1 ≤ 'D') && c2 = ')'
    | _ => false
  | .lowerA =>
    match s with
    | c1 :: c2 :: _ => ('a' ≤ c1 && c1 ≤ 'd') && c2 = ')'
    | _ => false
  | .bulleted =>
    match s with
    | c1 :: c2 :: c3 :: c4 :: _ =>
      c1 = '·' && pyIsSpace c2 && ('A' ≤ c3 && c3 ≤ 'D') && c4 = ')'
    | _ => false
  | .numeric =>
    s.takeWhile Char.isDigit ≠ [] && (s.dropWhile Char.isDigit).head? = some ')'

/-- `Question\s+\d+:` tested at the start of a string (the lookahead of
the `question` separator). -/
def matchesQuestionLabel (s : Str) : Bool :=
  if ("Question".toList).isPrefixOf s then
    let r := s.drop 8
    let w := r.takeWhile pyIsSpace
    let r2 := r.dropWhile pyIsSpace
    let ds := r2.takeWhile Char.isDigit
    let r3 := r2.dropWhile Char.isDigit
    w ≠ [] && ds ≠ [] && r3.head? = some ':'
  else false

/-- `re.split(r'\n(?=...)', s)` for a zero-width lookahead `p`: split at
every newline whose remaining suffix satisfies `p`; the newline is
consumed, the suffix is kept. -/
def splitLookaheadAux (p : Str → Bool) : Str → Str × List Str
  | [] => ([], [])
  | c :: cs =>
    let r := splitLookaheadAux p cs
    if c = '\n' && p cs then ([], r.1 :: r.2) else (c :: r.1, r.2)

/-- Index of the last `'\n'` in a string, if any. -/
def lastNlIdx : Str → Option Nat
  | [] => none
  | c :: cs =>
    match lastNlIdx cs with
    | some k => some (k + 1)
    | none => if c = '\n' then some 0 else none

/-- Length of a leftmost match of `\n\s*\n` starting at `s`, if any: a
newline, then the greedy whitespace run backed off to end at its last
newline. -/
def blankSepLen (s : Str) : Option Nat :=
  match s with
  | '\n' :: rest =>
    (lastNlIdx (rest.takeWhile pyIsSpace)).map (fun k => k + 2)
  | _ => none

/-- Fuel-driven scan for `re.split(r'\n\s*\n', s)`; fuel bounds the number
of characters consumed and `s.length` is always enough. -/
def reSplitBlankAux : Nat → Str → Str × List Str
  | 0, s => (s, [])
  | _, [] => ([], [])
  | fuel + 1, c :: cs =>
    match blankSepLen (c :: cs) with
    | some n =>
      let r := reSplitBlankAux fuel (List.drop n (c :: cs))
      ([], r.1 :: r.2)
    | none =>
      let r := reSplitBlankAux fuel cs
      (c :: r.1, r.2)

/-- `re.split(q_sep, s)` for the three configurable separators. -/
def reSplit (q : QSep) (s : Str) : List Str :=
  match q with
  | .bold =>
    let r := splitLookaheadAux (fun rest => (['*', '*']).isPrefixOf rest) s
    r.1 :: r.2
  | .questionLabel =>
    let r := splitLookaheadAux matchesQuestionLabel s
    r.1 :: r.2
  | .blankLine =>
    let r := reSplitBlankAux s.length s
    r.1 :: r.2

/-- One parsed question (the dict appended at source lines 59-64). -/
structure QuestionRecord where
  question : Str
  options : List Str
  answer : Str
  explanation : Str
deriving DecidableEq, Repr

/-- The per-block accumulator (`options`, `answer`, `explanation` of the
source, with Python `None` as `Option.none`). -/
structure BlockState where
  options : List Str
  answer : Option Str
  explanation : Option Str
deriving DecidableEq, Repr

def initState : BlockState := ⟨[], none, none⟩

/-- One iteration of the line-classification loop (source lines 27-50). -/
def stepLine (optSt : OptStyle) (ansPre expPre : Str) (st : BlockState)
    (rawLine : Str) : BlockState :=
  let line := strip rawLine
  if line = [] then st
  else
    let isStarred := line.head? = some '*'
    let cleanLine := strip (line.dropWhile (· = '*'))
    if optMatch optSt cleanLine then
      { st with
        options := st.options ++ [cleanLine]
        answer := if isStarred then some (strip (stripMarker cleanLine))
                  else st.answer }
    else if (lowerStr ansPre).isPrefixOf (lowerStr line) then
      { st with
        answer := some (strip (stripMarker (strip (line.drop ansPre.length)))) }
    else if (lowerStr expPre).isPrefixOf (lowerStr line) then
      { st with explanation := some (strip (line.drop expPre.length)) }
    else if isStarred then
      { st with options := st.options ++ [cleanLine], answer := some cleanLine }
    else st

/-- Process one (already stripped, non-empty) block: clean the first line
into the question text, fold the classifier over the remaining lines. -/
def processBlock (optSt : OptStyle) (ansPre expPre : Str) (block : Str) :
    Str × BlockState :=
  let r := splitNlAux block
  (cleanQuestionLine r.1, r.2.foldl (stepLine optSt ansPre expPre) initState)

/-- Python truthiness test `not x` for the optional-string accumulators:
true for `None` and for the empty string. -/
def falsyOpt : Option Str → Bool
  | none => true
  | some s => s = []

def notEnoughMsg (idx : Nat) (qtext : Str) : Str :=
  "Not enough options in question #".toList ++ natStr idx ++ ": \"".toList
    ++ qtext ++ "\"".toList

def missingAnswerMsg (idx : Nat) (qtext : Str) : Str :=
  "Missing answer in question #".toList ++ natStr idx ++ ": \"".toList
    ++ qtext ++ "\"".toList

def missingExplanationMsg (idx : Nat) (qtext : Str) : Str :=
  "Missing explanation in question #".toList ++ natStr idx ++ ": \"".toList
    ++ qtext ++ "\"".toList

def noValidMsg : Str := "No valid questions found. Check your format settings.".toList

/-- The wrapping applied by the outer `except` (source line 72). -/
def wrapMsg (e : Str) : Str := "Guided format parsing failed: ".toList ++ e

/-- Handle one enumerated block (source lines 12-64): skipped when blank,
otherwise validated into a record or a `ValueError` message. -/
def parseBlock (optSt : OptStyle) (ansPre expPre : Str) (idx : Nat)
    (b : Str) : Except Str (Option QuestionRecord) :=
  let block := strip b
  if block = [] then .ok none
  else
    let r := processBlock optSt ansPre expPre block
    if r.2.options.length < 2 then .error (notEnoughMsg idx r.1)
    else if falsyOpt r.2.answer then .error (missingAnswerMsg idx r.1)
    else if falsyOpt r.2.explanation then .error (missingExplanationMsg idx r.1)
    else .ok (some ⟨r.1, r.2.options, r.2.answer.getD [], r.2.explanation.getD []⟩)

/-- The enumerated loop over question blocks (`enumerate(..., start=1)`):
the index advances on every raw block, including skipped blank ones, and
the first failing block aborts everything. -/
def parseBlocks (optSt : OptStyle) (ansPre expPre : Str) :
    Nat → List Str → Except Str (List QuestionRecord)
  | _, [] => .ok []
  | idx, b :: rest =>
    match parseBlock optSt ansPre expPre idx b with
    | .error e => .error e
    | .ok none => parseBlocks optSt ansPre expPre (idx + 1) rest
    | .ok (some q) => (parseBlocks optSt ansPre expPre (idx + 1) rest).map (q :: ·)

/-- `parse_guided_format` (source lines 8-72): split the stripped text,
process the blocks, reject an empty result, and wrap every error message. -/
def parse_guided_format (text : Str) (qsep : QSep) (optSt : OptStyle)
    (ansPre expPre : Str) : Except Str (List QuestionRecord) :=
  match parseBlocks optSt ansPre expPre 1 (reSplit qsep (strip text)) with
  | .error e => .error (wrapMsg e)
  | .ok [] => .error (wrapMsg noValidMsg)
  | .ok qs => .ok qs

/-- An lxml element: tag, attributes (in creation order), optional text,
and children (in `SubElement` creation order). -/
inductive Xml where
  | elem (tag : Str) (attrs : List (Str × Str)) (text : Option Str)
      (children : List Xml)

def Xml.tag : Xml → Str
  | .elem t _ _ _ => t

def Xml.attrs : Xml → List (Str × Str)
  | .elem _ a _ _ => a

def Xml.text : Xml → Option Str
  | .elem _ _ t _ => t

def Xml.children : Xml → List Xml
  | .elem _ _ _ c => c

/-- Attribute lookup by name. -/
def Xml.attr (x : Xml) (name : Str) : Option Str :=
  (x.attrs.find? (fun p => p.1 = name)).map (·.2)

/-- First child with the given tag. -/
def Xml.findChild (x : Xml) (t : Str) : Option Xml :=
  x.children.find? (fun c => c.tag = t)

/-- Map with a running 1-based (or arbitrary-origin) index. -/
def mapWithIndex1 (f : Nat → Str → Xml) : Nat → List Str → List Xml
  | _, [] => []
  | k, x :: xs => f k x :: mapWithIndex1 f (k + 1) xs

/-- The option normalization shared by the serializer (source lines 93 and
109): strip the leading marker, then strip whitespace. -/
def stripOptMarker (o : Str) : Str := strip (stripMarker o)

/-- The correct-option comparison of source lines 108-109. -/
def optPred (q : QuestionRecord) (o : Str) : Bool :=
  lowerStr (strip q.answer) = lowerStr (stripOptMarker o)

/-- 1-based index of the first element satisfying `p`. -/
def findIdx1 (p : Str → Bool) : List Str → Option Nat
  | [] => none
  | x :: xs => if p x then some 1 else (findIdx1 p xs).map (· + 1)

/-- `correct_option_id` (source lines 106-111): first 1-based option index
whose normalized text equals the normalized answer, defaulting to 1. -/
def correctOptionId (q : QuestionRecord) : Nat :=
  (findIdx1 (optPred q) q.options).getD 1

/-- `option{k}` identifiers. -/
def optionIdent (k : Nat) : Str := "option".toList ++ natStr k

/-- One `response_label` node (source lines 90-94). -/
def mkLabel (j : Nat) (o : Str) : Xml :=
  .elem "response_label".toList [("ident".toList, optionIdent j)] none
    [.elem "material".toList [] none
      [.elem "mattext".toList [] (some (stripOptMarker o)) []]]

/-- One `item` node, for the question at 0-based position `i` (source
lines 78-134). -/
def mkItem (ptsStr : Str) (i : Nat) (q : QuestionRecord) : Xml :=
  .elem "item".toList
    [("ident".toList, 'q' :: natStr (i + 1)),
     ("title".toList, "Question ".toList ++ natStr (i + 1))] none
    [.elem "presentation".toList [] none
      [.elem "flow".toList [] none
        [.elem "material".toList [] none
          [.elem "mattext".toList [] (some q.question) []],
         .elem "response_lid".toList
           [("ident".toList, "response1".toList),
            ("rcardinality".toList, "Single".toList)] none
           [.elem "render_choice".toList [] none
             (mapWithIndex1 mkLabel 1 q.options)]]],
     .elem "resprocessing".toList [] none
      [.elem "outcomes".toList [] none
        [.elem "decvar".toList
          [("varname".toList, "SCORE".toList),
           ("vartype".toList, "Decimal".toList),
           ("default".toList, ptsStr)] none []],
       .elem "respcondition".toList [("title".toList, "correct".toList)] none
        [.elem "conditionvar".toList [] none
          [.elem "varequal".toList [("respident".toList, "response1".toList)]
            (some (optionIdent (correctOptionId q))) []],
         .elem "setvar".toList [("action".toList, "Set".toList)] (some ptsStr) [],
         .elem "displayfeedback".toList
          [("feedbacktype".toList, "Response".toList),
           ("linkrefid".toList, "feedback_correct".toList)] none []],
       .elem "respcondition".toList [("title".toList, "incorrect".toList)] none
        [.elem "conditionvar".toList [] none [],
         .elem "setvar".toList [("action".toList, "Set".toList)] (some ['0']) [],
         .elem "displayfeedback".toList
          [("feedbacktype".toList, "Response".toList),
           ("linkrefid".toList, "feedback_incorrect".toList)] none []]],
     .elem "itemfeedback".toList [("ident".toList, "feedback_correct".toList)] none
      [.elem "material".toList [] none
        [.elem "mattext".toList [] (some q.explanation) []]],
     .elem "itemfeedback".toList [("ident".toList, "feedback_incorrect".toList)] none
      [.elem "material".toList [] none
        [.elem "mattext".toList [] (some q.explanation) []]]]

/-- Index-carrying item construction over the question list. -/
def mkItems (ptsStr : Str) : Nat → List QuestionRecord → List Xml
  | _, [] => []
  | i, q :: qs => mkItem ptsStr i q :: mkItems ptsStr (i + 1) qs

/-- `create_qti_bytes` (source lines 75-139), modelled as the element tree
the source serializes; `points_per_question` enters only as
`str(points_per_question)` and is passed already formatted. -/
def create_qti_bytes (questions : List QuestionRecord) (ptsStr : Str) : Xml :=
  .elem "questestinterop".toList [] none (mkItems ptsStr 0 questions)

/-- Navigate to the text of the `varequal` of the `respcondition` titled
`correct` of an item. -/
def itemCorrectVarequal (item : Xml) : Option Str := do
  let rp ← item.findChild "resprocessing".toList
  let rc ← rp.children.find? (fun c =>
    c.tag = "respcondition".toList && c.attr "title".toList = some "correct".toList)
  let cv ← rc.findChild "conditionvar".toList
  let ve ← cv.findChild "varequal".toList
  ve.text

/-- Navigate to the list of `response_label` children of an item. -/
def itemResponseLabels (item : Xml) : Option (List Xml) := do
  let p ← item.findChild "presentation".toList
  let f ← p.findChild "flow".toList
  let rl ← f.findChild "response_lid".toList
  let rc ← rl.findChild "render_choice".toList
  pure rc.children

/-- The material text of a `response_label`. -/
def labelText (x : Xml) : Option Str := do
  let m ← x.findChild "material".toList
  let mt ← m.findChild "mattext".toList
  mt.text

/-- (identifier, material text) of each response label of an item. -/
def labelsInfo (item : Xml) : Option (List (Option Str × Option Str)) :=
  (itemResponseLabels item).map
    (List.map (fun x => (x.attr "ident".toList, labelText x)))

/-! ### Definitions used to state the claims -/

/-- The worked example input of the specification. -/
def exInput : Str :=
  "Question 1: What is 2+2?\na) 3\n*b) 4\nc) 5\nAnswer: b) 4\nExplanation: 2+2 is 4.".toList

/-- The record the worked example is expected to produce. -/
def exRecord : QuestionRecord :=
  ⟨"What is 2+2?".toList,
   ["a) 3".toList, "b) 4".toList, "c) 5".toList],
   "4".toList, "2+2 is 4.".toList⟩

/-- Whether option `j` (0-based) of a record matches its answer under the
serializer's normalized comparison. -/
def answerMatches (q : QuestionRecord) (j : Nat) : Bool :=
  ((q.options.get? j).map (optPred q)).getD false

/-- Whether a block raises one of the three per-question validation
errors: it is non-blank and, after processing, has fewer than 2 options,
a falsy answer, or a falsy explanation. -/
def blockViolates (optSt : OptStyle) (ansPre expPre : Str) (b : Str) : Bool :=
  let block := strip b
  block ≠ [] &&
    (let r := processBlock optSt ansPre expPre block
     decide (r.2.options.length < 2) || falsyOpt r.2.answer || falsyOpt r.2.explanation)

/-- The message a violating block raises, following the source's check
order (options, then answer, then explanation). -/
def blockErrMsg (optSt : OptStyle) (ansPre expPre : Str) (idx : Nat) (b : Str) : Str :=
  let r := processBlock optSt ansPre expPre (strip b)
  if r.2.options.length < 2 then notEnoughMsg idx r.1
  else if falsyOpt r.2.answer then missingAnswerMsg idx r.1
  else missingExplanationMsg idx r.1

/-- The value assigned to the `answer` accumulator by one classified line,
if it assigns one (mirrors `stepLine` branch by branch). -/
def lineAnswerEffect (optSt : OptStyle) (ansPre expPre : Str) (rawLine : Str) :
    Option Str :=
  let line := strip rawLine
  if line = [] then none
  else
    let isStarred := line.head? = some '*'
    let cleanLine := strip (line.dropWhile (· = '*'))
    if optMatch optSt cleanLine then
      if isStarred then some (strip (stripMarker cleanLine)) else none
    else if (lowerStr ansPre).isPrefixOf (lowerStr line) then
      some (strip (stripMarker (strip (line.drop ansPre.length))))
    else if (lowerStr expPre).isPrefixOf (lowerStr line) then none
    else if isStarred then some cleanLine
    else none

/-- A line classified as a starred option: starts with `*` and, with the
stars stripped, matches the option pattern. -/
def isStarredOptionLine (optSt : OptStyle) (rawLine : Str) : Bool :=
  let line := strip rawLine
  line.head? = some '*' && optMatch optSt (strip (line.dropWhile (· = '*')))

/-- A line classified as an answer line: non-blank, not an option line,
and its lowering starts with the lowered answer marker. -/
def isAnswerLine (optSt : OptStyle) (ansPre : Str) (rawLine : Str) : Bool :=
  let line := strip rawLine
  line ≠ [] && !optMatch optSt (strip (line.dropWhile (· = '*'))) &&
    (lowerStr ansPre).isPrefixOf (lowerStr line)

/-- The `answerText` an answer line produces: drop the marker, strip,
drop a leading option marker, strip. -/
def answerLineValue (ansPre rawLine : Str) : Str :=
  strip (stripMarker (strip ((strip rawLine).drop ansPre.length)))

/-! ### General lemmas about the embedding -/

theorem mkItems_get? (ptsStr : Str) (k i : Nat) (qs : List QuestionRecord) :
    (mkItems ptsStr k qs).get? i = (qs.get? i).map (mkItem ptsStr (k + i)) := by
  induction qs generalizing k i with
  | nil => simp [mkItems]
  | cons q rest ih =>
    cases i with
    | zero => simp [mkItems]
    | succ n =>
      simp only [mkItems, List.get?]
      rw [ih (k + 1) n, show k + 1 + n = k + (n + 1) by omega]

theorem mapWithIndex1_get? (f : Nat → Str → Xml) (k i : Nat) (xs : List Str) :
    (mapWithIndex1 f k xs).get? i = (xs.get? i).map (f (k + i)) := by
  induction xs generalizing k i with
  | nil => simp [mapWithIndex1]
  | cons x rest ih =>
    cases i with
    | zero => simp [mapWithIndex1]
    | succ n =>
      simp only [mapWithIndex1, List.get?]
      rw [ih (k + 1) n, show k + 1 + n = k + (n + 1) by omega]

theorem mapWithIndex1_length (f : Nat → Str → Xml) (k : Nat) (xs : List Str) :
    (mapWithIndex1 f k xs).length = xs.length := by
  induction xs generalizing k with
  | nil => rfl
  | cons x rest ih => simp [mapWithIndex1, ih]

theorem itemCorrectVarequal_mkItem (ptsStr : Str) (i : Nat) (q : QuestionRecord) :
    itemCorrectVarequal (mkItem ptsStr i q) = some (optionIdent (correctOptionId q)) := rfl

theorem itemResponseLabels_mkItem (ptsStr : Str) (i : Nat) (q : QuestionRecord) :
    itemResponseLabels (mkItem ptsStr i q) = some (mapWithIndex1 mkLabel 1 q.options) := rfl

theorem children_create_qti (ptsStr : Str) (qs : List QuestionRecord) :
    (create_qti_bytes qs ptsStr).children = mkItems ptsStr 0 qs := rfl

theorem findIdx1_none (p : Str → Bool) (l : List Str)
    (h : ∀ x ∈ l, p x = false) : findIdx1 p l = none := by
  induction l with
  | nil => rfl
  | cons x xs ih =>
    simp only [findIdx1, h x (List.mem_cons_self x xs)]
    simp only [Bool.false_eq_true, if_false]
    rw [ih (fun y hy => h y (List.mem_cons_of_mem x hy))]
    rfl

theorem findIdx1_first (p : Str → Bool) (l : List Str) (j : Nat) (x : Str)
    (hget : l.get? j = some x) (hp : p x = true)
    (hfirst : ∀ j' x', j' < j → l.get? j' = some x' → p x' = false) :
    findIdx1 p l = some (j + 1) := by
  induction l generalizing j with
  | nil => simp [List.get?] at hget
  | cons y ys ih =>
    cases j with
    | zero =>
      simp only [List.get?] at hget
      injection hget with hx
      subst hx
      simp [findIdx1, hp]
    | succ n =>
      have hy : p y = false := hfirst 0 y (Nat.succ_pos n) rfl
      simp only [findIdx1, hy, Bool.false_eq_true, if_false]
      rw [ih n hget (fun j' x' hj' hg => hfirst (j' + 1) x' (Nat.succ_lt_succ hj') hg)]
      rfl

theorem findIdx1_bounds (p : Str → Bool) (l : List Str) (k : Nat)
    (h : findIdx1 p l = some k) : 1 ≤ k ∧ k ≤ l.length := by
  induction l generalizing k with
  | nil => simp [findIdx1] at h
  | cons y ys ih =>
    simp only [findIdx1] at h
    by_cases hy : p y
    · rw [if_pos hy] at h
      injection h with h
      simp only [List.length_cons]
      omega
    · rw [if_neg hy] at h
      rw [Option.map_eq_some'] at h
      obtain ⟨m, hm, hk⟩ := h
      have hb := ih m hm
      simp only [List.length_cons]
      omega


theorem stepLine_answer (optSt : OptStyle) (ansPre expPre : Str)
    (st : BlockState) (l : Str) :
    (stepLine optSt ansPre expPre st l).answer =
      (lineAnswerEffect optSt ansPre expPre l).or st.answer := by
  simp only [stepLine, lineAnswerEffect]
  split_ifs <;> simp [Option.or]

theorem foldl_answer_none (optSt : OptStyle) (ansPre expPre : Str)
    (ys : List Str) (st : BlockState)
    (h : ∀ y ∈ ys, lineAnswerEffect optSt ansPre expPre y = none) :
    (ys.foldl (stepLine optSt ansPre expPre) st).answer = st.answer := by
  induction ys generalizing st with
  | nil => rfl
  | cons y ys ih =>
    simp only [List.foldl_cons]
    rw [ih _ (fun z hz => h z (List.mem_cons_of_mem y hz)),
        stepLine_answer, h y (List.mem_cons_self y ys)]
    rfl

theorem foldl_answer_last (optSt : OptStyle) (ansPre expPre : Str)
    (xs ys : List Str) (l : Str) (v : Str) (st : BlockState)
    (hl : lineAnswerEffect optSt ansPre expPre l = some v)
    (hy : ∀ y ∈ ys, lineAnswerEffect optSt ansPre expPre y = none) :
    ((xs ++ l :: ys).foldl (stepLine optSt ansPre expPre) st).answer = some v := by
  rw [List.foldl_append, List.foldl_cons,
      foldl_answer_none optSt ansPre expPre ys _ hy, stepLine_answer, hl]
  rfl

theorem isAnswerLine_effect (optSt : OptStyle) (ansPre expPre : Str) (l : Str)
    (h : isAnswerLine optSt ansPre l = true) :
    lineAnswerEffect optSt ansPre expPre l = some (answerLineValue ansPre l) := by
  unfold isAnswerLine at h
  simp only [Bool.and_eq_true, Bool.not_eq_true', decide_eq_true_eq, ne_eq] at h
  obtain ⟨⟨h1, h2⟩, h3⟩ := h
  unfold lineAnswerEffect answerLineValue
  rw [if_neg h1, if_neg (by rw [h2]; exact Bool.false_ne_true), if_pos h3]

theorem parseBlock_ok_some (optSt : OptStyle) (ansPre expPre : Str)
    (idx : Nat) (b : Str) (q : QuestionRecord)
    (h : parseBlock optSt ansPre expPre idx b = .ok (some q)) :
    strip b ≠ [] ∧
    q = ⟨(processBlock optSt ansPre expPre (strip b)).1,
         (processBlock optSt ansPre expPre (strip b)).2.options,
         ((processBlock optSt ansPre expPre (strip b)).2.answer).getD [],
         ((processBlock optSt ansPre expPre (strip b)).2.explanation).getD []⟩ ∧
    2 ≤ (processBlock optSt ansPre expPre (strip b)).2.options.length := by
  simp only [parseBlock] at h
  split_ifs at h with h1 h2 h3 h4
  · exact Option.noConfusion (Except.ok.inj h)
  · refine ⟨h1, ?_, by omega⟩
    exact (Option.some.inj (Except.ok.inj h)).symm

theorem parseBlock_violates_error (optSt : OptStyle) (ansPre expPre : Str)
    (idx : Nat) (b : Str)
    (h : blockViolates optSt ansPre expPre b = true) :
    parseBlock optSt ansPre expPre idx b =
      .error (blockErrMsg optSt ansPre expPre idx b) := by
  simp only [blockViolates, Bool.and_eq_true, Bool.or_eq_true, decide_eq_true_eq,
    ne_eq] at h
  obtain ⟨h1, h2⟩ := h
  simp only [parseBlock, blockErrMsg]
  rw [if_neg h1]
  rcases h2 with (h2 | h2) | h2
  · rw [if_pos h2, if_pos h2]
  · by_cases hlen : (processBlock optSt ansPre expPre (strip b)).2.options.length < 2
    · rw [if_pos hlen, if_pos hlen]
    · rw [if_neg hlen, if_neg hlen, if_pos h2, if_pos h2]
  · by_cases hlen : (processBlock optSt ansPre expPre (strip b)).2.options.length < 2
    · rw [if_pos hlen, if_pos hlen]
    · rw [if_neg hlen, if_neg hlen]
      by_cases hans : falsyOpt (processBlock optSt ansPre expPre (strip b)).2.answer = true
      · rw [if_pos hans, if_pos hans]
      · rw [if_neg hans, if_neg hans, if_pos h2]

theorem parseBlock_no_violation_ok (optSt : OptStyle) (ansPre expPre : Str)
    (idx : Nat) (b : Str)
    (h : blockViolates optSt ansPre expPre b = false) :
    ∃ r, parseBlock optSt ansPre expPre idx b = .ok r := by
  simp only [blockViolates, Bool.and_eq_false_iff, Bool.or_eq_false_iff,
    decide_eq_false_iff_not, ne_eq, Bool.not_eq_true] at h
  simp only [parseBlock]
  rcases h with h | ⟨⟨h1, h2⟩, h3⟩
  · rw [if_pos (by simpa using h)]
    exact ⟨none, rfl⟩
  · by_cases hb : strip b = []
    · rw [if_pos hb]; exact ⟨none, rfl⟩
    · rw [if_neg hb, if_neg (by omega), if_neg (by rw [h2]; exact Bool.false_ne_true),
          if_neg (by rw [h3]; exact Bool.false_ne_true)]
      exact ⟨_, rfl⟩

theorem parseBlocks_error_at (optSt : OptStyle) (ansPre expPre : Str)
    (blocks : List Str) :
    ∀ (idx i : Nat), i < blocks.length →
    blockViolates optSt ansPre expPre (blocks.getD i []) = true →
    (∀ j, j < i → blockViolates optSt ansPre expPre (blocks.getD j []) = false) →
    parseBlocks optSt ansPre expPre idx blocks =
      .error (blockErrMsg optSt ansPre expPre (idx + i) (blocks.getD i [])) := by
  induction blocks with
  | nil =>
    intro idx i hi
    simp at hi
  | cons b rest ih =>
    intro idx i hi hv hprev
    cases i with
    | zero =>
      have hv' : blockViolates optSt ansPre expPre b = true := by simpa using hv
      simp only [parseBlocks]
      rw [parseBlock_violates_error optSt ansPre expPre idx b hv']
      rfl
    | succ n =>
      have h0 : blockViolates optSt ansPre expPre b = false := by
        simpa using hprev 0 (Nat.succ_pos n)
      obtain ⟨r, hr⟩ := parseBlock_no_violation_ok optSt ansPre expPre idx b h0
      have hrec := ih (idx + 1) n (by simpa using hi) (by simpa using hv)
        (fun j hj => by simpa using hprev (j + 1) (Nat.succ_lt_succ hj))
      simp only [parseBlocks]
      rw [hr]
      cases r with
      | none =>
        rw [show (b :: rest).getD (n + 1) [] = rest.getD n [] from rfl,
            show idx + (n + 1) = (idx + 1) + n by omega]
        exact hrec
      | some q0 =>
        show (parseBlocks optSt ansPre expPre (idx + 1) rest).map (q0 :: ·) = _
        rw [hrec, show (b :: rest).getD (n + 1) [] = rest.getD n [] from rfl,
            show idx + (n + 1) = (idx + 1) + n by omega]
        rfl

theorem parseBlocks_ok_len (optSt : OptStyle) (ansPre expPre : Str)
    (bs : List Str) :
    ∀ (idx : Nat) (qs : List QuestionRecord),
    parseBlocks optSt ansPre expPre idx bs = .ok qs →
    ∀ q ∈ qs, 2 ≤ q.options.length := by
  induction bs with
  | nil =>
    intro idx qs h q hq
    simp only [parseBlocks] at h
    injection h with h
    subst h
    simp at hq
  | cons b rest ih =>
    intro idx qs h q hq
    simp only [parseBlocks] at h
    cases hpb : parseBlock optSt ansPre expPre idx b with
    | error e =>
      rw [hpb] at h
      exact Except.noConfusion h
    | ok r =>
      rw [hpb] at h
      cases r with
      | none => exact ih (idx + 1) qs h q hq
      | some q0 =>
        cases hrec : parseBlocks optSt ansPre expPre (idx + 1) rest with
        | error e =>
          rw [hrec] at h
          exact Except.noConfusion h
        | ok qs' =>
          rw [hrec] at h
          have hqs : q0 :: qs' = qs := Except.ok.inj h
          rcases List.mem_cons.mp (hqs ▸ hq) with hq0 | hq'
          · obtain ⟨_, hqEq, hlen⟩ :=
              parseBlock_ok_some optSt ansPre expPre idx b q0 hpb
            subst hq0
            rw [hqEq]
            exact hlen
          · exact ih (idx + 1) qs' hrec q hq'

theorem correctOptionId_of_no_match (q : QuestionRecord)
    (h : ∀ j, answerMatches q j = false) : correctOptionId q = 1 := by
  unfold correctOptionId
  rw [findIdx1_none (optPred q) q.options ?_]
  · rfl
  · intro x hx
    obtain ⟨n, hn⟩ := List.mem_iff_get?.mp hx
    have hm := h n
    unfold answerMatches at hm
    rw [hn] at hm
    simpa using hm

theorem correctOptionId_of_first_match (q : QuestionRecord) (j : Nat)
    (hj : answerMatches q j = true)
    (hfirst : ∀ j', j' < j → answerMatches q j' = false) :
    correctOptionId q = j + 1 := by
  unfold correctOptionId
  unfold answerMatches at hj
  cases hget : q.options.get? j with
  | none =>
    rw [hget] at hj
    simp at hj
  | some x =>
    rw [hget] at hj
    simp only [Option.map_some', Option.getD_some] at hj
    rw [findIdx1_first (optPred q) q.options j x hget hj ?_]
    · rfl
    · intro j' x' hj' hg
      have hm := hfirst j' hj'
      unfold answerMatches at hm
      rw [hg] at hm
      simpa using hm

theorem parse_ok_parseBlocks (text : Str) (qsep : QSep) (optSt : OptStyle)
    (ansPre expPre : Str) (qs : List QuestionRecord)
    (hok : parse_guided_format text qsep optSt ansPre expPre = .ok qs) :
    parseBlocks optSt ansPre expPre 1 (reSplit qsep (strip text)) = .ok qs := by
  unfold parse_guided_format at hok
  cases hp : parseBlocks optSt ansPre expPre 1 (reSplit qsep (strip text)) with
  | error e =>
    rw [hp] at hok
    exact Except.noConfusion hok
  | ok l =>
    rw [hp] at hok
    cases l with
    | nil => exact Except.noConfusion hok
    | cons a as => exact congrArg Except.ok (Except.ok.inj hok)

/-! ### The claims -/

/-- Claim C1: parsing the worked example with the question-label separator,
lower-case option marker, answer prefix `Answer:` and explanation marker
`Explanation:` yields exactly one record with question text
`What is 2+2?`, options `a) 3`, `b) 4`, `c) 5`, answer `4` and
explanation `2+2 is 4.`; serializing that record puts the correct
condition's `varequal` text on `option2`. -/
theorem claim_C1 :
    parse_guided_format exInput .questionLabel .lowerA
        "Answer:".toList "Explanation:".toList = .ok [exRecord] ∧
    exRecord.question = "What is 2+2?".toList ∧
    exRecord.options = ["a) 3".toList, "b) 4".toList, "c) 5".toList] ∧
    exRecord.answer = "4".toList ∧
    exRecord.explanation = "2+2 is 4.".toList ∧
    itemCorrectVarequal ((create_qti_bytes [exRecord] "1.0".toList).children.getD 0
        (Xml.elem [] [] none [])) = some "option2".toList :=
  ⟨rfl, rfl, rfl, rfl, rfl, rfl⟩

/-- Counterexample to claim C4: parsing the worked example with the
blank-line separator does not fail; it succeeds with the same single
record, because `re.split` with no separator match returns the whole
text as one block. -/
theorem claim_C4_counterexample :
    parse_guided_format exInput .blankLine .lowerA
        "Answer:".toList "Explanation:".toList = .ok [exRecord] :=
  rfl

/-- Claim C4 (amended): with the blank-line separator configured on the
worked example, splitting recognizes the whole input as one block (not
zero blocks), and parsing therefore succeeds with the same single record
rather than failing structurally. -/
theorem claim_C4 :
    reSplit .blankLine (strip exInput) = [exInput] ∧
    parse_guided_format exInput .blankLine .lowerA
        "Answer:".toList "Explanation:".toList = .ok [exRecord] :=
  ⟨rfl, rfl⟩

/-- Claim C6: a non-empty line whose star-stripped form matches the
option pattern is classified as an option even when it also starts
(case-insensitively) with the answer marker: it is appended to the
options, and the answer accumulator is changed only by the starred-option
rule (unchanged when the line is unstarred), never by the answer-marker
rule. -/
theorem claim_C6 (optSt : OptStyle) (ansPre expPre : Str) (st : BlockState)
    (rawLine : Str)
    (hne : strip rawLine ≠ [])
    (hopt : optMatch optSt (strip ((strip rawLine).dropWhile (· = '*'))) = true)
    (hans : (lowerStr ansPre).isPrefixOf (lowerStr (strip rawLine)) = true) :
    stepLine optSt ansPre expPre st rawLine =
      { st with
        options := st.options ++ [strip ((strip rawLine).dropWhile (· = '*'))]
        answer := if (strip rawLine).head? = some '*' then
            some (strip (stripMarker (strip ((strip rawLine).dropWhile (· = '*')))))
          else st.answer } ∧
    ((strip rawLine).head? ≠ some '*' →
      (stepLine optSt ansPre expPre st rawLine).answer = st.answer) := by
  constructor
  · simp only [stepLine]
    rw [if_neg hne, if_pos hopt]
  · intro hstar
    simp only [stepLine]
    rw [if_neg hne, if_pos hopt]
    simp [hstar]

/-- Witness for claim C6 at the option line `a) 3` with answer marker
`a)`. -/
theorem claim_C6_witness :
    stepLine .lowerA "a)".toList "Explanation:".toList initState "a) 3".toList =
      { initState with
        options := initState.options ++
          [strip ((strip "a) 3".toList).dropWhile (· = '*'))]
        answer := if (strip "a) 3".toList).head? = some '*' then
            some (strip (stripMarker (strip ((strip "a) 3".toList).dropWhile (· = '*')))))
          else initState.answer } ∧
    ((strip "a) 3".toList).head? ≠ some '*' →
      (stepLine .lowerA "a)".toList "Explanation:".toList initState "a) 3".toList).answer
        = initState.answer) :=
  claim_C6 .lowerA "a)".toList "Explanation:".toList initState "a) 3".toList
    (by decide) (by decide) (by decide)

/-- Claim C7: when block processing produces zero records, parsing fails
with the distinct no-valid-questions error (whose message differs from
every per-question validation message); consequently a successful parse
always returns a non-empty record list. -/
theorem claim_C7 (text : Str) (qsep : QSep) (optSt : OptStyle)
    (ansPre expPre : Str) :
    (parseBlocks optSt ansPre expPre 1 (reSplit qsep (strip text)) = .ok [] →
      parse_guided_format text qsep optSt ansPre expPre =
        .error (wrapMsg noValidMsg)) ∧
    (∀ qs, parse_guided_format text qsep optSt ansPre expPre = .ok qs →
      qs ≠ []) ∧
    (∀ idx qtext, wrapMsg noValidMsg ≠ wrapMsg (notEnoughMsg idx qtext) ∧
      wrapMsg noValidMsg ≠ wrapMsg (missingAnswerMsg idx qtext) ∧
      wrapMsg noValidMsg ≠ wrapMsg (missingExplanationMsg idx qtext)) := by
  refine ⟨?_, ?_, ?_⟩
  · intro h
    unfold parse_guided_format
    rw [h]
  · intro qs h hnil
    subst hnil
    have := parse_ok_parseBlocks text qsep optSt ansPre expPre [] h
    unfold parse_guided_format at h
    rw [this] at h
    exact Except.noConfusion h
  · intro idx qtext
    refine ⟨fun h => ?_, fun h => ?_, fun h => ?_⟩
    · have h2 : noValidMsg.get? 2 = (notEnoughMsg idx qtext).get? 2 :=
        congrArg (fun l => l.get? 2) (List.append_cancel_left h)
      rw [show noValidMsg.get? 2 = some ' ' from rfl,
          show (notEnoughMsg idx qtext).get? 2 = some 't' from rfl] at h2
      exact absurd (Option.some.inj h2) (by decide)
    · have h2 : noValidMsg.get? 0 = (missingAnswerMsg idx qtext).get? 0 :=
        congrArg (fun l => l.get? 0) (List.append_cancel_left h)
      rw [show noValidMsg.get? 0 = some 'N' from rfl,
          show (missingAnswerMsg idx qtext).get? 0 = some 'M' from rfl] at h2
      exact absurd (Option.some.inj h2) (by decide)
    · have h2 : noValidMsg.get? 0 = (missingExplanationMsg idx qtext).get? 0 :=
        congrArg (fun l => l.get? 0) (List.append_cancel_left h)
      rw [show noValidMsg.get? 0 = some 'N' from rfl,
          show (missingExplanationMsg idx qtext).get? 0 = some 'M' from rfl] at h2
      exact absurd (Option.some.inj h2) (by decide)

/-- Witness for claim C7 on the empty input, whose single stripped block
is blank, so zero records are produced and the distinct error surfaces. -/
theorem claim_C7_witness :
    parse_guided_format [] .questionLabel .lowerA
        "Answer:".toList "Explanation:".toList = .error (wrapMsg noValidMsg) :=
  (claim_C7 [] .questionLabel .lowerA "Answer:".toList "Explanation:".toList).1 rfl

/-- Claim C2: for every serialized record, the correct condition's
`varequal` text is `option{k}` with k the 1-based index of the first
option whose normalized text equals the normalized answer, and k = 1 when
no option matches; the serializer always produces the item. -/
theorem claim_C2 (qs : List QuestionRecord) (ptsStr : Str) (i : Nat)
    (q : QuestionRecord) (hq : qs.get? i = some q) :
    ∃ item, (create_qti_bytes qs ptsStr).children.get? i = some item ∧
      itemCorrectVarequal item = some (optionIdent (correctOptionId q)) ∧
      ((∀ j, answerMatches q j = false) → correctOptionId q = 1) ∧
      (∀ j, answerMatches q j = true →
        (∀ j', j' < j → answerMatches q j' = false) →
        correctOptionId q = j + 1) := by
  refine ⟨mkItem ptsStr i q, ?_, itemCorrectVarequal_mkItem ptsStr i q,
    correctOptionId_of_no_match q,
    fun j hj hfirst => correctOptionId_of_first_match q j hj hfirst⟩
  rw [children_create_qti, mkItems_get? ptsStr 0 i qs, hq]
  simp

/-- Witness for claim C2 on a two-option record whose answer matches the
second option. -/
theorem claim_C2_witness :
    ∃ item,
      (create_qti_bytes [⟨['q'], ["a) 1".toList, "b) 2".toList], ['2'], ['e']⟩]
          "1.0".toList).children.get? 0 = some item ∧
      itemCorrectVarequal item =
        some (optionIdent (correctOptionId
          ⟨['q'], ["a) 1".toList, "b) 2".toList], ['2'], ['e']⟩)) ∧
      ((∀ j, answerMatches ⟨['q'], ["a) 1".toList, "b) 2".toList], ['2'], ['e']⟩ j
          = false) →
        correctOptionId ⟨['q'], ["a) 1".toList, "b) 2".toList], ['2'], ['e']⟩ = 1) ∧
      (∀ j, answerMatches ⟨['q'], ["a) 1".toList, "b) 2".toList], ['2'], ['e']⟩ j
          = true →
        (∀ j', j' < j →
          answerMatches ⟨['q'], ["a) 1".toList, "b) 2".toList], ['2'], ['e']⟩ j'
            = false) →
        correctOptionId ⟨['q'], ["a) 1".toList, "b) 2".toList], ['2'], ['e']⟩
          = j + 1) :=
  claim_C2 [⟨['q'], ["a) 1".toList, "b) 2".toList], ['2'], ['e']⟩]
    "1.0".toList 0 ⟨['q'], ["a) 1".toList, "b) 2".toList], ['2'], ['e']⟩ rfl

/-- Claim C8: the i-th question yields the i-th item, with identifier
`q{i+1}`, title `Question {i+1}`, and one response label per option, in
order, the j-th labelled `option{j+1}` and carrying the option's
marker-stripped text. -/
theorem claim_C8 (qs : List QuestionRecord) (ptsStr : Str) (i : Nat)
    (q : QuestionRecord) (hq : qs.get? i = some q) :
    ∃ item, (create_qti_bytes qs ptsStr).children.get? i = some item ∧
      item.tag = "item".toList ∧
      item.attr "ident".toList = some ('q' :: natStr (i + 1)) ∧
      item.attr "title".toList = some ("Question ".toList ++ natStr (i + 1)) ∧
      ∃ lbls, itemResponseLabels item = some lbls ∧
        lbls.length = q.options.length ∧
        ∀ j o, q.options.get? j = some o →
          ∃ lbl, lbls.get? j = some lbl ∧
            lbl.attr "ident".toList = some (optionIdent (j + 1)) ∧
            labelText lbl = some (stripOptMarker o) := by
  refine ⟨mkItem ptsStr i q, ?_, rfl, rfl, rfl,
    mapWithIndex1 mkLabel 1 q.options, itemResponseLabels_mkItem ptsStr i q,
    mapWithIndex1_length mkLabel 1 q.options, ?_⟩
  · rw [children_create_qti, mkItems_get? ptsStr 0 i qs, hq]
    simp
  · intro j o ho
    refine ⟨mkLabel (j + 1) o, ?_, rfl, rfl⟩
    rw [mapWithIndex1_get? mkLabel 1 j q.options, ho, Nat.add_comm 1 j]
    rfl

/-- Witness for claim C8 on the worked-example record at position 0. -/
theorem claim_C8_witness :
    ∃ item, (create_qti_bytes [exRecord] "1.0".toList).children.get? 0
        = some item ∧
      item.tag = "item".toList ∧
      item.attr "ident".toList = some ('q' :: natStr 1) ∧
      item.attr "title".toList = some ("Question ".toList ++ natStr 1) ∧
      ∃ lbls, itemResponseLabels item = some lbls ∧
        lbls.length = exRecord.options.length ∧
        ∀ j o, exRecord.options.get? j = some o →
          ∃ lbl, lbls.get? j = some lbl ∧
            lbl.attr "ident".toList = some (optionIdent (j + 1)) ∧
            labelText lbl = some (stripOptMarker o) :=
  claim_C8 [exRecord] "1.0".toList 0 exRecord rfl

/-- Claim C9 (implicit): when the answer matches several options, the
correct condition references the lowest matching 1-based index. -/
theorem claim_C9 (qs : List QuestionRecord) (ptsStr : Str) (i : Nat)
    (q : QuestionRecord) (hq : qs.get? i = some q) (j j' : Nat)
    (hmatch : answerMatches q j = true)
    (hleast : ∀ m, m < j → answerMatches q m = false)
    (hj' : j < j') (hmatch' : answerMatches q j' = true) :
    ∃ item, (create_qti_bytes qs ptsStr).children.get? i = some item ∧
      itemCorrectVarequal item = some (optionIdent (j + 1)) := by
  refine ⟨mkItem ptsStr i q, ?_, ?_⟩
  · rw [children_create_qti, mkItems_get? ptsStr 0 i qs, hq]
    simp
  · rw [itemCorrectVarequal_mkItem ptsStr i q,
        correctOptionId_of_first_match q j hmatch hleast]

/-- Witness for claim C9 on a record whose answer matches both options;
the first (lowest) index is referenced. -/
theorem claim_C9_witness :
    ∃ item,
      (create_qti_bytes [⟨['q'], ["a) 7".toList, "b) 7".toList], ['7'], ['e']⟩]
          "1.0".toList).children.get? 0 = some item ∧
      itemCorrectVarequal item = some (optionIdent (0 + 1)) :=
  claim_C9 [⟨['q'], ["a) 7".toList, "b) 7".toList], ['7'], ['e']⟩]
    "1.0".toList 0 ⟨['q'], ["a) 7".toList, "b) 7".toList], ['7'], ['e']⟩ rfl
    0 1 (by decide) (fun m hm => absurd hm (Nat.not_lt_zero m)) (by decide)
    (by decide)

/-- Claim C3: if the first violating block (fewer than 2 options, falsy
answer, or falsy explanation) sits at 0-based position i among the split
blocks, parsing fails with the wrapped message of that block — which
names the 1-based position 1+i and the block's parsed question text — and
no record list is returned. -/
theorem claim_C3 (text : Str) (qsep : QSep) (optSt : OptStyle)
    (ansPre expPre : Str) (i : Nat)
    (hi : i < (reSplit qsep (strip text)).length)
    (hv : blockViolates optSt ansPre expPre
      ((reSplit qsep (strip text)).getD i []) = true)
    (hfirst : ∀ j, j < i → blockViolates optSt ansPre expPre
      ((reSplit qsep (strip text)).getD j []) = false) :
    parse_guided_format text qsep optSt ansPre expPre =
      .error (wrapMsg (blockErrMsg optSt ansPre expPre (1 + i)
        ((reSplit qsep (strip text)).getD i []))) ∧
    (∀ qs, parse_guided_format text qsep optSt ansPre expPre ≠ .ok qs) ∧
    (∃ qtext, qtext =
        (processBlock optSt ansPre expPre
          (strip ((reSplit qsep (strip text)).getD i []))).1 ∧
      (blockErrMsg optSt ansPre expPre (1 + i)
          ((reSplit qsep (strip text)).getD i []) = notEnoughMsg (1 + i) qtext ∨
       blockErrMsg optSt ansPre expPre (1 + i)
          ((reSplit qsep (strip text)).getD i []) = missingAnswerMsg (1 + i) qtext ∨
       blockErrMsg optSt ansPre expPre (1 + i)
          ((reSplit qsep (strip text)).getD i [])
            = missingExplanationMsg (1 + i) qtext)) := by
  have herr := parseBlocks_error_at optSt ansPre expPre
    (reSplit qsep (strip text)) 1 i hi hv hfirst
  refine ⟨?_, ?_, ?_⟩
  · unfold parse_guided_format
    rw [herr]
  · intro qs hq
    unfold parse_guided_format at hq
    rw [herr] at hq
    exact Except.noConfusion hq
  · refine ⟨(processBlock optSt ansPre expPre
      (strip ((reSplit qsep (strip text)).getD i []))).1, rfl, ?_⟩
    simp only [blockErrMsg]
    split_ifs
    · left; rfl
    · right; left; rfl
    · right; right; rfl

/-- Input with a single option, used to exercise the validation error. -/
def c3Input : Str := "Question 1: q?\na) 3\nAnswer: 3\nExplanation: e.".toList

/-- Witness for claim C3 on a block with only one option. -/
theorem claim_C3_witness :
    parse_guided_format c3Input .questionLabel .lowerA
        "Answer:".toList "Explanation:".toList =
      .error (wrapMsg (blockErrMsg .lowerA "Answer:".toList "Explanation:".toList
        (1 + 0) ((reSplit .questionLabel (strip c3Input)).getD 0 []))) ∧
    (∀ qs, parse_guided_format c3Input .questionLabel .lowerA
        "Answer:".toList "Explanation:".toList ≠ .ok qs) ∧
    (∃ qtext, qtext =
        (processBlock .lowerA "Answer:".toList "Explanation:".toList
          (strip ((reSplit .questionLabel (strip c3Input)).getD 0 []))).1 ∧
      (blockErrMsg .lowerA "Answer:".toList "Explanation:".toList (1 + 0)
          ((reSplit .questionLabel (strip c3Input)).getD 0 [])
            = notEnoughMsg (1 + 0) qtext ∨
       blockErrMsg .lowerA "Answer:".toList "Explanation:".toList (1 + 0)
          ((reSplit .questionLabel (strip c3Input)).getD 0 [])
            = missingAnswerMsg (1 + 0) qtext ∨
       blockErrMsg .lowerA "Answer:".toList "Explanation:".toList (1 + 0)
          ((reSplit .questionLabel (strip c3Input)).getD 0 [])
            = missingExplanationMsg (1 + 0) qtext)) :=
  claim_C3 c3Input .questionLabel .lowerA "Answer:".toList "Explanation:".toList
    0 (by decide) (by decide) (fun j hj => absurd hj (Nat.not_lt_zero j))

/-- Input whose answer line precedes a starred option carrying a
different value. -/
def cex5Input : Str :=
  "Question 1: q?\nAnswer: c) 5\na) 3\n*b) 4\nc) 5\nExplanation: e.".toList

/-- Counterexample to claim C5: in a block containing both a starred
option line (`*b) 4`) and an answer line (`Answer: c) 5`), with the
answer line first, the emitted answer is the starred option's value `4`,
not the answer line's value `5` — the answer line does not override
regardless of order. -/
theorem claim_C5_counterexample :
    parse_guided_format cex5Input .questionLabel .lowerA
        "Answer:".toList "Explanation:".toList =
      .ok [⟨"q?".toList, ["a) 3".toList, "b) 4".toList, "c) 5".toList],
           "4".toList, "e.".toList⟩] ∧
    isStarredOptionLine .lowerA "*b) 4".toList = true ∧
    isAnswerLine .lowerA "Answer:".toList "Answer: c) 5".toList = true ∧
    answerLineValue "Answer:".toList "Answer: c) 5".toList = "5".toList ∧
    ("4".toList : Str) ≠ "5".toList :=
  ⟨rfl, rfl, rfl, rfl, by decide⟩

/-- Claim C5 (amended): in a block containing both a starred option line
and an answer line, the emitted record's answer is the answer line's
value (marker-stripped after dropping the answer marker) provided the
answer line comes after the starred option and no later line of the block
sets the answer; in general the last answer-setting line wins. -/
theorem claim_C5 (optSt : OptStyle) (ansPre expPre : Str) (idx : Nat)
    (b : Str) (q : QuestionRecord) (l0 l : Str) (xs ys : List Str)
    (hsplit : splitNlAux (strip b) = (l0, xs ++ l :: ys))
    (hstar : ∃ x ∈ xs, isStarredOptionLine optSt x = true)
    (hansl : isAnswerLine optSt ansPre l = true)
    (hlast : ∀ y ∈ ys, lineAnswerEffect optSt ansPre expPre y = none)
    (hok : parseBlock optSt ansPre expPre idx b = .ok (some q)) :
    q.answer = answerLineValue ansPre l := by
  obtain ⟨hne, hqEq, _⟩ := parseBlock_ok_some optSt ansPre expPre idx b q hok
  rw [hqEq]
  show ((processBlock optSt ansPre expPre (strip b)).2.answer).getD [] = _
  simp only [processBlock, hsplit]
  rw [foldl_answer_last optSt ansPre expPre xs ys l (answerLineValue ansPre l)
    initState (isAnswerLine_effect optSt ansPre expPre l hansl) hlast]
  rfl

/-- Witness for claim C5 (amended): answer line after the starred option;
its value `5` wins. -/
theorem claim_C5_witness :
    (⟨"q?".toList, ["a) 3".toList, "b) 4".toList, "c) 5".toList],
      "5".toList, "e.".toList⟩ : QuestionRecord).answer =
      answerLineValue "Answer:".toList "Answer: c) 5".toList :=
  claim_C5 .lowerA "Answer:".toList "Explanation:".toList 1
    "Question 1: q?\na) 3\n*b) 4\nc) 5\nAnswer: c) 5\nExplanation: e.".toList
    ⟨"q?".toList, ["a) 3".toList, "b) 4".toList, "c) 5".toList],
      "5".toList, "e.".toList⟩
    "Question 1: q?".toList "Answer: c) 5".toList
    ["a) 3".toList, "*b) 4".toList, "c) 5".toList] ["Explanation: e.".toList]
    (by decide) (by decide) (by decide) (by decide) rfl

/-- Claim C10 (implicit invariant): for every record of a successful
parse, the correct-option index k satisfies 1 ≤ k ≤ number of options,
and the `varequal` text `option{k}` names the identifier of a
response label that exists in the same item. -/
theorem claim_C10 (text : Str) (qsep : QSep) (optSt : OptStyle)
    (ansPre expPre ptsStr : Str) (qs : List QuestionRecord)
    (hok : parse_guided_format text qsep optSt ansPre expPre = .ok qs)
    (i : Nat) (q : QuestionRecord) (hq : qs.get? i = some q) :
    1 ≤ correctOptionId q ∧ correctOptionId q ≤ q.options.length ∧
    ∃ item, (create_qti_bytes qs ptsStr).children.get? i = some item ∧
      itemCorrectVarequal item = some (optionIdent (correctOptionId q)) ∧
      ∃ lbls lbl, itemResponseLabels item = some lbls ∧
        lbls.get? (correctOptionId q - 1) = some lbl ∧
        lbl.attr "ident".toList = some (optionIdent (correctOptionId q)) := by
  have hqs := parse_ok_parseBlocks text qsep optSt ansPre expPre qs hok
  have hlen : 2 ≤ q.options.length :=
    parseBlocks_ok_len optSt ansPre expPre (reSplit qsep (strip text)) 1 qs hqs
      q (List.get?_mem hq)
  have hbound : 1 ≤ correctOptionId q ∧ correctOptionId q ≤ q.options.length := by
    unfold correctOptionId
    cases hf : findIdx1 (optPred q) q.options with
    | none =>
      simp only [Option.getD_none]
      omega
    | some k =>
      simp only [Option.getD_some]
      exact findIdx1_bounds (optPred q) q.options k hf
  obtain ⟨hk1, hk2⟩ := hbound
  have hklt : correctOptionId q - 1 < q.options.length := by omega
  obtain ⟨o, ho⟩ : ∃ o, q.options.get? (correctOptionId q - 1) = some o :=
    ⟨q.options.get ⟨_, hklt⟩, List.get?_eq_get hklt⟩
  refine ⟨hk1, hk2, mkItem ptsStr i q, ?_, itemCorrectVarequal_mkItem ptsStr i q,
    mapWithIndex1 mkLabel 1 q.options, mkLabel (correctOptionId q) o,
    itemResponseLabels_mkItem ptsStr i q, ?_, rfl⟩
  · rw [children_create_qti, mkItems_get? ptsStr 0 i qs, hq]
    simp
  · rw [mapWithIndex1_get? mkLabel 1 (correctOptionId q - 1) q.options, ho,
        show 1 + (correctOptionId q - 1) = correctOptionId q by omega]
    rfl

/-- Witness for claim C10 on the parsed worked example. -/
theorem claim_C10_witness :
    1 ≤ correctOptionId exRecord ∧
    correctOptionId exRecord ≤ exRecord.options.length ∧
    ∃ item, (create_qti_bytes [exRecord] "1.0".toList).children.get? 0
        = some item ∧
      itemCorrectVarequal item = some (optionIdent (correctOptionId exRecord)) ∧
      ∃ lbls lbl, itemResponseLabels item = some lbls ∧
        lbls.get? (correctOptionId exRecord - 1) = some lbl ∧
        lbl.attr "ident".toList = some (optionIdent (correctOptionId exRecord)) :=
  claim_C10 exInput .questionLabel .lowerA "Answer:".toList
    "Explanation:".toList "1.0".toList [exRecord] rfl 0 exRecord rfl
